import Mathlib

/-!
Verification development for the saarthi-trading backend core.

The Python sources under backend/ are shallow-embedded here:
Python floats are modelled as exact rationals, Python dicts holding the
ticker mapping as association lists with overwrite-on-insert, network
calls as oracle arguments (an Option value, none standing for a raised
and caught exception), and the FastAPI handlers as pure functions from
explicit state to state plus result.
-/

/-- Python str.upper(), written charwise so that it evaluates by kernel
reduction (String.toUpper itself does not). -/
def upperStr (s : String) : String := ⟨s.data.map Char.toUpper⟩

/-- Helper for removeAll: fuel-indexed left-to-right removal of every
non-overlapping occurrence of pat, restarting after each match, exactly
the semantics of Python s.replace(pat, empty string). One unit of fuel is
spent per emitted or matched position, so fuel = length of s suffices. -/
def removeAllAux (pat : List Char) : ℕ → List Char → List Char
  | 0, l => l
  | _ + 1, [] => []
  | fuel + 1, c :: rest =>
      if !pat.isEmpty && pat.isPrefixOf (c :: rest) then
        removeAllAux pat fuel ((c :: rest).drop pat.length)
      else c :: removeAllAux pat fuel rest

/-- Python s.replace(pat, empty string): delete every occurrence of pat. -/
def removeAll (s pat : String) : String :=
  ⟨removeAllAux pat.data s.data.length s.data⟩

/-- Dict write new_cache[sym] = last: overwrite an existing key in place,
otherwise append at the end (Python dict insertion semantics). -/
def insertSym (m : List (String × ℚ)) (k : String) (v : ℚ) : List (String × ℚ) :=
  match m with
  | [] => [(k, v)]
  | (k2, v2) :: rest => if k2 = k then (k, v) :: rest else (k2, v2) :: insertSym rest k v

/-- Dict read cache.get(sym): first (hence, with insertSym, only) binding of the key. -/
def lookupSym (m : List (String × ℚ)) (k : String) : Option ℚ :=
  match m with
  | [] => none
  | (k2, v) :: rest => if k2 = k then some v else lookupSym rest k

/-- One item of the /exchange/ticker response as seen by the field-sniffing
parsers in backend/routes/trading.py. Each field holds the value of the
corresponding JSON key when it is present with a usable type (a string for
symbol candidates, a float-convertible value for price candidates); a key
that is absent, non-string (for symbols) or not float-convertible (for
prices) is modelled as none, which is exactly how the sniffing loops treat
it. The nested "ticker" sub-object fallback of the sniffers is not
modelled; no claim depends on it. -/
structure TickerItem where
  market : Option String := none
  symbol : Option String := none
  pair : Option String := none
  market_symbol : Option String := none
  last : Option ℚ := none
  last_price : Option ℚ := none
  price : Option ℚ := none
  close : Option ℚ := none
deriving DecidableEq

/-- Embeds _guess_symbol_from_item: first present string among the keys
market, symbol, pair, market_symbol, uppercased. -/
def _guess_symbol_from_item (it : TickerItem) : Option String :=
  (it.market <|> it.symbol <|> it.pair <|> it.market_symbol).map upperStr

/-- Embeds _guess_last_from_item: first float-convertible value among the
keys last, last_price, price, close. -/
def _guess_last_from_item (it : TickerItem) : Option ℚ :=
  it.last <|> it.last_price <|> it.price <|> it.close

/-- The parsing loop inside refresh_ticker_cache: an item contributes the
binding new_cache[sym] = last exactly when both guesses succeed and the
guessed symbol is truthy (non-empty). -/
def parse_ticker_items (items : List TickerItem) : List (String × ℚ) :=
  items.foldl (fun acc it =>
    match _guess_symbol_from_item it, _guess_last_from_item it with
    | some sym, some lastv => if sym = "" then acc else insertSym acc sym lastv
    | _, _ => acc) []

/-- Module-level ticker state of trading.py: _ticker_cache together with
_ticker_cache_updated_at. -/
structure TickerState where
  cache : List (String × ℚ)
  updatedAt : ℚ
deriving DecidableEq

/-- Embeds refresh_ticker_cache (trading.py). The fetch oracle is none when
_fetch_all_tickers raises (the except branch logs and leaves state alone;
a non-list JSON payload parses to the empty cache and is observably the
same). A parsed cache that is truthy (non-empty) replaces the mapping in
one assignment and stamps the refresh time; an empty parse changes
nothing. -/
def refresh_ticker_cache (fetch : Option (List TickerItem)) (st : TickerState) (now : ℚ) :
    TickerState :=
  match fetch with
  | none => st
  | some items =>
      let newCache := parse_ticker_items items
      if newCache = [] then st else ⟨newCache, now⟩

/-- Embeds the GET /price/symbol handler get_price_http. Returns the
response (price and cache timestamp, none standing for the 404
HTTPException) together with the ticker state after the call. The refresh
oracle is consulted only on the cache-miss path, exactly as in the
source. -/
def get_price_http (st : TickerState) (fetch : Option (List TickerItem)) (now : ℚ)
    (symbol : String) : Option (ℚ × ℚ) × TickerState :=
  let sym := upperStr symbol
  match lookupSym st.cache sym with
  | some p => (some (p, st.updatedAt), st)
  | none =>
      let st2 := refresh_ticker_cache fetch st now
      match lookupSym st2.cache sym with
      | some p => (some (p, st2.updatedAt), st2)
      | none => (none, st2)

/-- The ticker state _get_usdt_inr_rate reads after its conditional refresh:
it refreshes when USDTINR is absent from the cache or the cache is older
than 30 seconds. -/
def fx_refreshed_state (st : TickerState) (now : ℚ) (fetch : Option (List TickerItem)) :
    TickerState :=
  if lookupSym st.cache "USDTINR" = none ∨ 30 < now - st.updatedAt
  then refresh_ticker_cache fetch st now
  else st

/-- Embeds _get_usdt_inr_rate: after the conditional refresh, a missing or
falsy (zero) USDTINR entry falls back to the hardcoded rate 90.0. -/
def _get_usdt_inr_rate (st : TickerState) (now : ℚ) (fetch : Option (List TickerItem)) : ℚ :=
  match lookupSym (fx_refreshed_state st now fetch).cache "USDTINR" with
  | none => 90
  | some r => if r = 0 then 90 else r

/-- One item of the ticker response as parsed by PriceBroadcaster._poll_loop,
which reads only the keys market and last_price. A last_price whose float
conversion fails even after comma stripping raises out of the parse loop
and aborts the whole cycle; that case is covered by the fetch oracle being
none. -/
structure PollItem where
  market : Option String := none
  last_price : Option ℚ := none
deriving DecidableEq

/-- The parsing loop of PriceBroadcaster._poll_loop: an item contributes
exactly when market is truthy (present and non-empty) and last_price is
present. -/
def parse_poll_items (items : List PollItem) : List (String × ℚ) :=
  items.foldl (fun acc it =>
    match it.market, it.last_price with
    | some m, some lp => if m = "" then acc else insertSym acc (upperStr m) lp
    | _, _ => acc) []

/-- Cache effect of one PriceBroadcaster._poll_loop cycle on self.tickers:
a failed fetch (exception caught by the cycle-level except) leaves the
mapping alone, but a successful fetch assigns self.tickers = new_tickers
unconditionally, with no emptiness guard. -/
def poll_cycle_tickers (fetch : Option (List PollItem)) (tickers : List (String × ℚ)) :
    List (String × ℚ) :=
  match fetch with
  | none => tickers
  | some items => parse_poll_items items

/-- One cycle of ticker_background_loop after the module-level rebinding of
refresh_ticker_cache to refresh_ticker_cache_and_broadcast: the refresh
step catches all of its own exceptions and is total, but the subsequent
_broadcast_price_updates awaits ws.send_text with no exception handler, so
a failing send propagates out of the cycle. The bcast oracle is the
outcome of that broadcast pass. -/
def ticker_cycle (fetch : Option (List TickerItem)) (bcast : Except String Unit)
    (st : TickerState) (now : ℚ) : Except String TickerState :=
  let st2 := refresh_ticker_cache fetch st now
  match bcast with
  | Except.ok _ => Except.ok st2
  | Except.error e => Except.error e

/-- The while-True loop of ticker_background_loop run over a finite schedule
of cycle oracles. Its only exception handler is except asyncio
CancelledError, so any error escaping a cycle terminates the loop. -/
def ticker_background_loop
    (cycles : List (Option (List TickerItem) × Except String Unit × ℚ))
    (st : TickerState) : Except String TickerState :=
  match cycles with
  | [] => Except.ok st
  | c :: rest =>
      match ticker_cycle c.1 c.2.1 st c.2.2 with
      | Except.ok st2 => ticker_background_loop rest st2
      | Except.error e => Except.error e

/-- The while loop of PriceBroadcaster._poll_loop over a finite schedule of
cycle oracles (fetch outcome and push outcome). The try body covers fetch,
parse, assignment and push, and except Exception swallows every failure,
so each cycle is total; the push outcome can affect neither the ticker
mapping (assigned before the push) nor loop continuation. -/
def _poll_loop (cycles : List (Option (List PollItem) × Except String Unit))
    (tickers : List (String × ℚ)) : Except String (List (String × ℚ)) :=
  match cycles with
  | [] => Except.ok tickers
  | c :: rest => _poll_loop rest (poll_cycle_tickers c.1 tickers)

/-- Decidable equality for Except values, used to evaluate concrete runs of
the raising order pipeline. -/
instance {e a : Type} [DecidableEq e] [DecidableEq a] : DecidableEq (Except e a) :=
  fun x y =>
    match x, y with
    | Except.ok u, Except.ok v =>
        if h : u = v then isTrue (by rw [h])
        else isFalse (fun hc => h (Except.ok.inj hc))
    | Except.error u, Except.error v =>
        if h : u = v then isTrue (by rw [h])
        else isFalse (fun hc => h (Except.error.inj hc))
    | Except.ok _, Except.error _ => isFalse (fun hc => Except.noConfusion hc)
    | Except.error _, Except.ok _ => isFalse (fun hc => Except.noConfusion hc)

/-- The result dict of a place_order_on_coindcx call that RETURNS, reduced to
its discriminating content: the named structured errors (sent False), and
the submitted case carrying the finalized total_quantity and the HTTP
status of the exchange response. The success flag of the submitted dict is
status in (200, 201) and is recovered by orderSuccess below. The paths on
which the source raises instead of returning are modelled by the Except
wrapper of place_order_on_coindcx itself. -/
inductive PlaceResult where
  | noInrWallet
  | instrumentNotActive
  | tradeSizeTooSmall
  | tradeSizeTooLarge
  | marginExceedsBalance (estimatedMargin walletBalance : ℚ)
  | submitted (totalQuantity : ℚ) (status : ℕ)
deriving DecidableEq

/-- Python x or y on optional floats: a missing or falsy (zero) x yields y. -/
def pyOrQ (a b : Option ℚ) : Option ℚ :=
  match a with
  | some x => if x = 0 then b else some x
  | none => b

/-- Python float(x or d) on an optional float field: missing or zero falls
back to the default. -/
def orFalsy (a : Option ℚ) (d : ℚ) : ℚ :=
  match a with
  | some x => if x = 0 then d else x
  | none => d

/-- Python (s or d) on an optional string: missing or empty falls back. -/
def pyOrS (a : Option String) (d : String) : String :=
  match a with
  | some s => if s = "" then d else s
  | none => d

/-- Instrument metadata dict as consumed by place_order_on_coindcx (only the
fields it reads). -/
structure Instrument where
  unit_contract_value : Option ℚ := none
  quantity_increment : Option ℚ := none
  min_quantity : Option ℚ := none
  max_quantity : Option ℚ := none
  max_leverage_long : Option ℚ := none
  max_leverage_short : Option ℚ := none
deriving DecidableEq

/-- float(inst.get("unit_contract_value") or 1.0). -/
def effUnitContractValue (inst : Instrument) : ℚ := orFalsy inst.unit_contract_value 1

/-- float(inst.get("quantity_increment") or 1.0). -/
def effQuantityIncrement (inst : Instrument) : ℚ := orFalsy inst.quantity_increment 1

/-- float(inst.get("min_quantity") or quantity_increment). -/
def effMinQuantity (inst : Instrument) : ℚ := orFalsy inst.min_quantity (effQuantityIncrement inst)

/-- float(inst.get("max_quantity") or 1e18). -/
def effMaxQuantity (inst : Instrument) : ℚ := orFalsy inst.max_quantity 1000000000000000000

/-- One entry of the futures wallets response (fields read by the code). -/
structure WalletEntry where
  currency_short_name : Option String := none
  balance : Option ℚ := none
  locked_balance : Option ℚ := none
deriving DecidableEq

/-- Embeds _get_inr_futures_wallet applied to the (already fetched) wallets
list: the first entry whose uppercased currency_short_name is INR. -/
def _get_inr_futures_wallet (wallets : List WalletEntry) : Option WalletEntry :=
  wallets.find? (fun w => upperStr (pyOrS w.currency_short_name "") == "INR")

/-- float(inr_wallet.get("balance") or 0.0). -/
def walletBalance (w : WalletEntry) : ℚ := orFalsy w.balance 0

/-- An entry of the in-memory _orders queue (the OrderIn fields plus the id
assigned at creation; local_id always equals id in this code path). -/
structure MemOrder where
  id : ℕ
  symbol : String
  qty : ℚ
  leverage : ℤ
  side : String
  order_type : String
  limit_price : Option ℚ := none
  margin : Option ℚ := none
deriving DecidableEq

/-- Pair derivation of place_order_on_coindcx: strip USDT, INR, USD from the
uppercased symbol and wrap as B-base_USDT. -/
def derivedPair (order : MemOrder) : String :=
  let symbol := upperStr order.symbol
  let base := removeAll (removeAll (removeAll symbol "USDT") "INR") "USD"
  "B-" ++ base ++ "_USDT"

/-- int(order.get("leverage") or 1): a falsy (zero) leverage becomes 1. -/
def effLeverage (order : MemOrder) : ℤ :=
  if order.leverage = 0 then 1 else order.leverage

/-- contracts_raw = trade_size_in_inr / (price * unit_contract_value * usdt_inr_rate). -/
def contractsRaw (qty price ucv rate : ℚ) : ℚ := qty / (price * ucv * rate)

/-- Python round-half-up rounding to the nearest integer, written with the
executable Rat.floor so that it evaluates by kernel reduction; it agrees
with the Mathlib round function (lemma ratRound_eq_round below). The
f-string rendering of CPython rounds the underlying binary float half to
even; in this exact-rational idealization the tie-breaking rule is
irrelevant to every statement proved here (no exercised value sits on a
tie). -/
def ratRound (q : ℚ) : ℤ := Rat.floor (q + 1 / 2)

/-- contracts_step = math.floor(contracts_raw / quantity_increment) * quantity_increment. -/
def contractsStep (raw inc : ℚ) : ℚ := (Rat.floor (raw / inc) : ℚ) * inc

/-- total_quantity = float(f-string of contracts_step at fixed 8 fractional
digits): rounding of the exact value to 8 decimal places. -/
def roundTo8 (x : ℚ) : ℚ := (ratRound (x * 100000000) : ℚ) / 100000000

/-- estimated_margin = notional_inr / leverage if leverage > 0 else notional_inr. -/
def estimatedMargin (notionalInr : ℚ) (lev : ℤ) : ℚ :=
  if 0 < lev then notionalInr / lev else notionalInr

/-- Outcome of the numeric sizing section of place_order_on_coindcx. -/
inductive SizeResult where
  | tooSmall
  | tooLarge
  | marginExceeds (est bal : ℚ)
  | ok (totalQuantity est : ℚ)
deriving DecidableEq

/-- The numeric sizing section of place_order_on_coindcx, from contracts_raw
down to the margin gate, with all inputs explicit. -/
def sizeContracts (qty price ucv inc minQ maxQ rate : ℚ) (lev : ℤ) (bal : ℚ) : SizeResult :=
  let step := contractsStep (contractsRaw qty price ucv rate) inc
  if step < minQ then SizeResult.tooSmall
  else if maxQ < step then SizeResult.tooLarge
  else
    let tq := roundTo8 step
    let est := estimatedMargin (price * ucv * tq * rate) lev
    if bal < est then SizeResult.marginExceeds est bal
    else SizeResult.ok tq est

/-- The environment a single place_order_on_coindcx call runs against:
ticker state and clock (price lookup and FX), the outcome of the wallets
fetch (the parsed wallets list, or the exception the un-caught fetch
raises), the active-instrument set for INR margin, the instrument metadata
for the derived pair, and the outcome of the order POST if it is reached
(the HTTP status of the response, or the exception a network failure
raises). -/
structure ExecEnv where
  ticker : TickerState
  now : ℚ := 0
  fxFetch : Option (List TickerItem) := none
  walletsFetch : Except String (List WalletEntry) := Except.ok []
  activeInstruments : List String := []
  inst : Instrument := {}
  exchResponse : Except String ℕ := Except.ok 200
deriving DecidableEq

/-- price = order.get("limit_price") or _ticker_cache.get(symbol, None). -/
def resolvedPrice (env : ExecEnv) (order : MemOrder) : Option ℚ :=
  pyOrQ order.limit_price (lookupSym env.ticker.cache (upperStr order.symbol))

/-- Embeds place_order_on_coindcx, Except.error standing for an exception
propagating out of the function: a falsy resolved price RAISES
HTTPException 400 (it does not return a result dict); the wallet fetch
inside _get_inr_futures_wallet has no exception handling, so a failed
fetch raises; a fetch that returns but holds no INR wallet yields the
structured no_inr_futures_wallet result. Then the active-instrument gate
on the derived pair, the numeric sizing section, and the submission POST,
whose own network failure also raises, while a response of any status is
returned as the submitted result dict. Gates appear in source order
(price, then wallet, then active set, before any quantity math). -/
def place_order_on_coindcx (env : ExecEnv) (order : MemOrder) : Except String PlaceResult :=
  match resolvedPrice env order with
  | none => Except.error ("No price available for " ++ upperStr order.symbol)
  | some price =>
      if price = 0 then Except.error ("No price available for " ++ upperStr order.symbol)
      else
        match env.walletsFetch with
        | Except.error e => Except.error e
        | Except.ok wallets =>
            match _get_inr_futures_wallet wallets with
            | none => Except.ok PlaceResult.noInrWallet
            | some w =>
                if derivedPair order ∈ env.activeInstruments then
                  match sizeContracts order.qty price (effUnitContractValue env.inst)
                      (effQuantityIncrement env.inst) (effMinQuantity env.inst)
                      (effMaxQuantity env.inst)
                      (_get_usdt_inr_rate env.ticker env.now env.fxFetch)
                      (effLeverage order) (walletBalance w) with
                  | SizeResult.tooSmall => Except.ok PlaceResult.tradeSizeTooSmall
                  | SizeResult.tooLarge => Except.ok PlaceResult.tradeSizeTooLarge
                  | SizeResult.marginExceeds e b =>
                      Except.ok (PlaceResult.marginExceedsBalance e b)
                  | SizeResult.ok tq _ =>
                      match env.exchResponse with
                      | Except.error e => Except.error e
                      | Except.ok status => Except.ok (PlaceResult.submitted tq status)
                else Except.ok PlaceResult.instrumentNotActive

/-- result.get("success"): true exactly for a submitted order answered with
HTTP status 200 or 201; every sizing error dict carries success False. -/
def orderSuccess (r : PlaceResult) : Bool :=
  match r with
  | PlaceResult.submitted _ s => s == 200 || s == 201
  | _ => false

/-- id_map = dict comprehension over _orders keyed by id: with duplicate ids
the later entry overwrites, so lookup scans the reversed list. -/
def idLookup (orders : List MemOrder) (oid : ℕ) : Option MemOrder :=
  orders.reverse.find? (fun o => o.id == oid)

/-- The per-id loop of the execute_orders handler, producing the four
accumulators (executed, failed, not_found, debug) in the same order the
Python appends produce them: an unresolved id goes to not_found and skips
the rest of its iteration; a resolved order is placed, its result is
traced in debug and it lands in executed or failed according to the
success flag of the result. The loop body has no exception handling, so
the first placement that raises aborts the whole pass: iterations after it
never run and the accumulated lists are discarded. -/
def execPass (place : MemOrder → Except String PlaceResult) (orders : List MemOrder) :
    List ℕ → Except String (List MemOrder × List ℕ × List ℕ × List (ℕ × String × PlaceResult))
  | [] => Except.ok ([], [], [], [])
  | oid :: rest =>
      match idLookup orders oid with
      | none =>
          match execPass place orders rest with
          | Except.error e => Except.error e
          | Except.ok r4 => Except.ok (r4.1, r4.2.1, oid :: r4.2.2.1, r4.2.2.2)
      | some o =>
          match place o with
          | Except.error e => Except.error e
          | Except.ok r =>
              match execPass place orders rest with
              | Except.error e => Except.error e
              | Except.ok r4 =>
                  if orderSuccess r then
                    Except.ok (o :: r4.1, r4.2.1, r4.2.2.1, (oid, o.symbol, r) :: r4.2.2.2)
                  else
                    Except.ok (r4.1, oid :: r4.2.1, r4.2.2.1, (oid, o.symbol, r) :: r4.2.2.2)

/-- The four-bucket response body of a completed execute_orders call. -/
structure ExecBatchResult where
  executed : List MemOrder
  failed : List ℕ
  notFound : List ℕ
  debug : List (ℕ × String × PlaceResult)
deriving DecidableEq

/-- Embeds the POST /orders/execute handler execute_orders: the HTTP
response produced (Except.error is an exception escaping the handler,
which the framework turns into a 500 with no four-bucket body) together
with the _orders queue after the call. The queue reassignment dropping
executed ids runs only on normal completion of the loop and only when
executed is non-empty; on an abort the queue keeps every order, the
already-submitted ones included. The place oracle stands for
place_order_on_coindcx under the environment of the moment of each
call. -/
def execute_orders (place : MemOrder → Except String PlaceResult) (orders : List MemOrder)
    (ids : List ℕ) : Except String ExecBatchResult × List MemOrder :=
  match execPass place orders ids with
  | Except.error e => (Except.error e, orders)
  | Except.ok r4 =>
      let newQueue :=
        if r4.1.isEmpty then orders
        else orders.filter (fun o => !(r4.1.any (fun e => e.id == o.id)))
      (Except.ok ⟨r4.1, r4.2.1, r4.2.2.1, r4.2.2.2⟩, newQueue)

/-- The OrderIn request model of trading.py (queue creation payload). -/
structure OrderIn where
  symbol : String
  qty : ℚ
  leverage : ℤ := 1
  side : String
  order_type : String
  limit_price : Option ℚ := none
  margin : Option ℚ := none
deriving DecidableEq

/-- The constraints the OrderIn pydantic model itself enforces before a
handler runs: leverage between 1 and 100, side BUY or SELL, order_type
market or limit. Note that qty carries no constraint in the model. -/
def validOrderIn (o : OrderIn) : Prop :=
  1 ≤ o.leverage ∧ o.leverage ≤ 100 ∧ (o.side = "BUY" ∨ o.side = "SELL") ∧
    (o.order_type = "market" ∨ o.order_type = "limit")

instance (o : OrderIn) : Decidable (validOrderIn o) := by
  unfold validOrderIn; infer_instance

/-- order.model_dump() with id and local_id set to the assigned counter. -/
def toMemOrder (o : OrderIn) (i : ℕ) : MemOrder :=
  ⟨i, o.symbol, o.qty, o.leverage, o.side, o.order_type, o.limit_price, o.margin⟩

/-- Module state of the in-memory queue: _orders and _order_next_id. -/
structure QueueState where
  orders : List MemOrder
  nextId : ℕ
deriving DecidableEq

/-- Embeds the POST /orders handler add_order: a falsy symbol or qty <= 0 is
rejected with HTTP 400 (result none) and stores nothing; otherwise the
order is appended with the next id and the counter advances. -/
def add_order (st : QueueState) (o : OrderIn) : QueueState × Option MemOrder :=
  if o.symbol = "" ∨ o.qty ≤ 0 then (st, none)
  else
    let r := toMemOrder o st.nextId
    (⟨st.orders ++ [r], st.nextId + 1⟩, some r)

/-- Embeds the POST /orders/bulk handler add_orders_bulk: every submitted
order is stored with an incremental id; the loop performs no validation of
its own. Returns the new state and the created list. -/
def add_orders_bulk (st : QueueState) (os : List OrderIn) : QueueState × List MemOrder :=
  match os with
  | [] => (st, [])
  | o :: rest =>
      let r := toMemOrder o st.nextId
      let res := add_orders_bulk ⟨st.orders ++ [r], st.nextId + 1⟩ rest
      (res.1, r :: res.2)

/-- The persisted OrderStatus enumeration of backend/models/database.py. -/
inductive UOStatus where
  | pending | queued | executed | failed | cancelled
deriving DecidableEq

/-- A row of the orders table, restricted to the fields user_orders.py reads
or writes. -/
structure UserOrder where
  id : ℕ
  user_id : ℕ
  symbol : String
  side : String
  order_type : String
  quantity : ℚ
  leverage : ℤ
  limit_price : Option ℚ := none
  margin : Option ℚ := none
  status : UOStatus
  created_at : ℚ
  updated_at : ℚ
  executed_at : Option ℚ := none
deriving DecidableEq

/-- The OrderUpdate request model of user_orders.py: every field optional;
a status field is accepted by the model but never applied by the handler,
so it is omitted here. -/
structure OrderUpdate where
  symbol : Option String := none
  side : Option String := none
  order_type : Option String := none
  quantity : Option ℚ := none
  leverage : Option ℤ := none
  limit_price : Option ℚ := none
  margin : Option ℚ := none
deriving DecidableEq

/-- The query shared by update_order and delete_order: first row matching
both the order id and the requesting user. -/
def findUserOrder (store : List UserOrder) (uid oid : ℕ) : Option UserOrder :=
  store.find? (fun o => o.id == oid && o.user_id == uid)

/-- The field assignments of update_order on the queued path: each provided
field replaces the stored one (symbol uppercased), absent fields are left
alone, and updated_at is stamped; id and created_at are never assigned. -/
def applyOrderUpdate (o : UserOrder) (u : OrderUpdate) (now : ℚ) : UserOrder :=
  { o with
    symbol := match u.symbol with | some s => upperStr s | none => o.symbol
    side := u.side.getD o.side
    order_type := u.order_type.getD o.order_type
    quantity := u.quantity.getD o.quantity
    leverage := u.leverage.getD o.leverage
    limit_price := match u.limit_price with | some p => some p | none => o.limit_price
    margin := match u.margin with | some m => some m | none => o.margin
    updated_at := now }

/-- Outcomes of the update and delete handlers. -/
inductive UpdResult where
  | notFoundErr | notUpdatable | leverageExceeds | ok
deriving DecidableEq

/-- Embeds the PUT order handler update_order of user_orders.py at the level
of the persisted store: missing row is a 404, a row whose status is not
QUEUED is rejected with the can-only-update-queued 400 and nothing is
written, the leverage cap rejection commits nothing (the session is closed
without commit on the exception path, discarding the partial attribute
assignments), and otherwise the row is rewritten by applyOrderUpdate. -/
def update_order (store : List UserOrder) (uid oid : ℕ) (maxLeverage : ℤ)
    (u : OrderUpdate) (now : ℚ) : List UserOrder × UpdResult :=
  match findUserOrder store uid oid with
  | none => (store, UpdResult.notFoundErr)
  | some o =>
      if o.status ≠ UOStatus.queued then (store, UpdResult.notUpdatable)
      else
        match u.leverage with
        | some l =>
            if maxLeverage < l then (store, UpdResult.leverageExceeds)
            else
              (store.map (fun x => if x.id == oid && x.user_id == uid
                then applyOrderUpdate x u now else x), UpdResult.ok)
        | none =>
            (store.map (fun x => if x.id == oid && x.user_id == uid
              then applyOrderUpdate x u now else x), UpdResult.ok)

/-- Embeds the DELETE order handler delete_order of user_orders.py: missing
row is a 404, a non-QUEUED row is rejected with the can-only-delete-queued
400 and nothing changes, a queued row is removed (deletion by primary
key). -/
def delete_order (store : List UserOrder) (uid oid : ℕ) : List UserOrder × UpdResult :=
  match findUserOrder store uid oid with
  | none => (store, UpdResult.notFoundErr)
  | some o =>
      if o.status ≠ UOStatus.queued then (store, UpdResult.notUpdatable)
      else (store.filter (fun x => x.id != oid), UpdResult.ok)

/-- The contracts_step value a place_order_on_coindcx run computes once the
price is resolved (an audit-log intermediate figure of the source). -/
def orderStep (env : ExecEnv) (order : MemOrder) (price : ℚ) : ℚ :=
  contractsStep
    (contractsRaw order.qty price (effUnitContractValue env.inst)
      (_get_usdt_inr_rate env.ticker env.now env.fxFetch))
    (effQuantityIncrement env.inst)

/-- The estimated_margin value a place_order_on_coindcx run computes (an
audit-log intermediate figure of the source). -/
def orderEstimatedMargin (env : ExecEnv) (order : MemOrder) (price : ℚ) : ℚ :=
  estimatedMargin
    (price * effUnitContractValue env.inst * roundTo8 (orderStep env order price) *
      _get_usdt_inr_rate env.ticker env.now env.fxFetch)
    (effLeverage order)

/-- The list of records the bulk-create loop builds from consecutive ids
starting at i. -/
def numberFrom (i : ℕ) (os : List OrderIn) : List MemOrder :=
  match os with
  | [] => []
  | o :: rest => toMemOrder o i :: numberFrom (i + 1) rest

/-- Environment exhibiting the C1 counterexample: an instrument whose
quantity_increment 3e-9 is not representable within 8 fractional digits. -/
def envC1 : ExecEnv :=
  { ticker := ⟨[("USDTINR", 1)], 0⟩
    now := 0
    walletsFetch := Except.ok [{ currency_short_name := some "INR", balance := some 100 }]
    activeInstruments := ["B-BTC_USDT"]
    inst := { unit_contract_value := some 1, quantity_increment := some (3 / 1000000000),
              min_quantity := some (3 / 1000000000), max_quantity := some 1000 }
    exchResponse := Except.ok 200 }

/-- Order driving the C1 counterexample run. -/
def orderC1 : MemOrder :=
  { id := 1, symbol := "BTCUSDT", qty := 7 / 1000000000, leverage := 1,
    side := "BUY", order_type := "market", limit_price := some 1 }

/-- Wallet entry with a 5000 INR balance. -/
def wInr5000 : WalletEntry := { currency_short_name := some "INR", balance := some 5000 }

/-- Wallet entry with a 500 INR balance. -/
def wInr500 : WalletEntry := { currency_short_name := some "INR", balance := some 500 }

/-- Environment of the worked sizing scenario of the design document:
price 60000, unit contract value 0.001, fx rate 90, increment 0.001. -/
def envW : ExecEnv :=
  { ticker := ⟨[("USDTINR", 90)], 0⟩
    now := 0
    walletsFetch := Except.ok [wInr5000]
    activeInstruments := ["B-BTC_USDT"]
    inst := { unit_contract_value := some (1 / 1000), quantity_increment := some (1 / 1000),
              min_quantity := some (1 / 1000), max_quantity := some 100 }
    exchResponse := Except.ok 200 }

/-- Order of the worked sizing scenario: 10000 INR notional at 10x. -/
def orderW : MemOrder :=
  { id := 1, symbol := "BTCUSDT", qty := 10000, leverage := 10,
    side := "BUY", order_type := "market", limit_price := some 60000 }

/-- The worked scenario with the wallet balance lowered to 500 INR, which
makes the estimated margin exceed the balance. -/
def envMarginReject : ExecEnv := { envW with walletsFetch := Except.ok [wInr500] }

/-- The worked scenario with an active-instrument set that does not contain
the derived pair. -/
def envInactive : ExecEnv := { envW with activeInstruments := ["B-ETH_USDT"] }

/-- Fetch outcome delivering one BTCUSDT item at price 7. -/
def fetchC3 : Option (List TickerItem) := some [{ market := some "BTCUSDT", last := some 7 }]

/-- Items whose parse is non-empty, for the cache-replacement witness. -/
def itemsC4 : List TickerItem := [{ market := some "BTCUSDT", last := some 7 }]

/-- Queued order resolved by the batch-execution witness. -/
def moA : MemOrder :=
  { id := 1, symbol := "BTCUSDT", qty := 1000, leverage := 5, side := "BUY",
    order_type := "market" }

/-- Second queued order of the batch-execution witness. -/
def moB : MemOrder :=
  { id := 2, symbol := "ETHUSDT", qty := 2000, leverage := 5, side := "SELL",
    order_type := "limit", limit_price := some 2500 }

/-- Queued market order with no limit price whose symbol has no ticker-cache
entry: placing it raises the no-price HTTPException. -/
def moC : MemOrder :=
  { id := 2, symbol := "XYZUSDT", qty := 2000, leverage := 5, side := "SELL",
    order_type := "market" }

/-- Environment of the batch-execution scenarios: the worked instrument with
BTCUSDT quoted in the ticker cache (so moA resolves a price and submits
with HTTP 200) while XYZUSDT is not quoted (so placing moC raises). -/
def envC7 : ExecEnv :=
  { ticker := ⟨[("USDTINR", 90), ("BTCUSDT", 60000)], 0⟩
    now := 0
    walletsFetch := Except.ok [wInr5000]
    activeInstruments := ["B-BTC_USDT"]
    inst := { unit_contract_value := some (1 / 1000), quantity_increment := some (1 / 1000),
              min_quantity := some (1 / 1000), max_quantity := some 100 }
    exchResponse := Except.ok 200 }

/-- A stored order still in the QUEUED state. -/
def uoQueued : UserOrder :=
  { id := 1, user_id := 10, symbol := "BTCUSDT", side := "BUY", order_type := "market",
    quantity := 1000, leverage := 5, status := UOStatus.queued, created_at := 50,
    updated_at := 50 }

/-- A stored order already EXECUTED, hence immutable. -/
def uoExecuted : UserOrder :=
  { id := 2, user_id := 10, symbol := "ETHUSDT", side := "SELL", order_type := "limit",
    quantity := 700, leverage := 3, limit_price := some 2500,
    status := UOStatus.executed, created_at := 40, updated_at := 45, executed_at := some 45 }

/-- Store holding one queued and one executed order of the same user. -/
def storeC8 : List UserOrder := [uoQueued, uoExecuted]

/-- Update payload touching symbol, quantity and leverage. -/
def updC8 : OrderUpdate := { symbol := some "ethusdt", quantity := some 2500, leverage := some 10 }

/-- A pydantic-valid OrderIn whose qty is negative. -/
def badOrder : OrderIn :=
  { symbol := "BTCUSDT", qty := -5, leverage := 10, side := "BUY", order_type := "market" }

/-- A pydantic-valid OrderIn with a positive qty. -/
def goodOrder : OrderIn :=
  { symbol := "BTCUSDT", qty := 1000, leverage := 10, side := "BUY", order_type := "market" }

attribute [local semireducible] Rat.mul Rat.add Rat.sub Rat.inv

/-- The executable Batteries floor on rationals agrees with the Mathlib
floor. -/
lemma ratFloor_eq_floor (q : ℚ) : Rat.floor q = ⌊q⌋ := by
  apply le_antisymm
  · rw [Int.le_floor]
    exact Rat.le_floor.mp le_rfl
  · rw [Rat.le_floor]
    exact Int.floor_le q

/-- The executable rounding agrees with the Mathlib round function. -/
lemma ratRound_eq_round (q : ℚ) : ratRound q = round q := by
  rw [ratRound, ratFloor_eq_floor, round_eq]

/-- Rounding to 8 fractional digits is the identity on a rational that is an
integer multiple of 1e-8. -/
lemma roundTo8_fixed (x : ℚ) (m : ℤ) (hm : x * 100000000 = (m : ℚ)) : roundTo8 x = x := by
  rw [roundTo8, hm, ratRound_eq_round, round_intCast, ← hm]
  field_simp

/-- Inversion of the successful branch of the sizing section: the returned
quantity is the rounded step, the step passed both bound gates, and the
estimated margin is within the balance. -/
lemma sizeContracts_ok_inv {qty price ucv inc minQ maxQ rate : ℚ} {lev : ℤ} {bal tq est : ℚ}
    (h : sizeContracts qty price ucv inc minQ maxQ rate lev bal = SizeResult.ok tq est) :
    tq = roundTo8 (contractsStep (contractsRaw qty price ucv rate) inc) ∧
    minQ ≤ contractsStep (contractsRaw qty price ucv rate) inc ∧
    contractsStep (contractsRaw qty price ucv rate) inc ≤ maxQ ∧
    est = estimatedMargin (price * ucv * tq * rate) lev ∧ est ≤ bal := by
  unfold sizeContracts at h
  dsimp only at h
  split_ifs at h with h1 h2 h3
  injection h with htq hest
  subst htq
  subst hest
  exact ⟨rfl, not_lt.mp h1, not_lt.mp h2, rfl, not_lt.mp h3⟩

/-- Inversion of a submitted result of place_order_on_coindcx: every gate
passed, the wallet fetch and the exchange POST both returned, and the
submitted quantity comes from the successful sizing branch with the
response status attached. -/
lemma place_order_submitted_inv {env : ExecEnv} {order : MemOrder} {tq : ℚ} {s : ℕ}
    (h : place_order_on_coindcx env order = Except.ok (PlaceResult.submitted tq s)) :
    env.exchResponse = Except.ok s ∧
    ∃ price wallets w, resolvedPrice env order = some price ∧ ¬ price = 0 ∧
      env.walletsFetch = Except.ok wallets ∧
      _get_inr_futures_wallet wallets = some w ∧
      derivedPair order ∈ env.activeInstruments ∧
      ∃ est, sizeContracts order.qty price (effUnitContractValue env.inst)
          (effQuantityIncrement env.inst) (effMinQuantity env.inst) (effMaxQuantity env.inst)
          (_get_usdt_inr_rate env.ticker env.now env.fxFetch) (effLeverage order)
          (walletBalance w) = SizeResult.ok tq est := by
  unfold place_order_on_coindcx at h
  cases hp : resolvedPrice env order with
  | none => rw [hp] at h; cases h
  | some price =>
      rw [hp] at h
      dsimp only at h
      split_ifs at h with h0 hact
      · cases hwf : env.walletsFetch with
        | error e => rw [hwf] at h; cases h
        | ok wallets =>
            rw [hwf] at h
            dsimp only at h
            cases hw : _get_inr_futures_wallet wallets with
            | none => rw [hw] at h; cases h
            | some w =>
                rw [hw] at h
                dsimp only at h
                cases hs : sizeContracts order.qty price (effUnitContractValue env.inst)
                    (effQuantityIncrement env.inst) (effMinQuantity env.inst)
                    (effMaxQuantity env.inst)
                    (_get_usdt_inr_rate env.ticker env.now env.fxFetch) (effLeverage order)
                    (walletBalance w) with
                | tooSmall => rw [hs] at h; cases h
                | tooLarge => rw [hs] at h; cases h
                | marginExceeds e b => rw [hs] at h; cases h
                | ok tq2 est =>
                    rw [hs] at h
                    dsimp only at h
                    cases hex : env.exchResponse with
                    | error e => rw [hex] at h; cases h
                    | ok status =>
                        rw [hex] at h
                        dsimp only at h
                        injection h with h1
                        injection h1 with ha hb
                        subst ha
                        subst hb
                        exact ⟨rfl, price, wallets, w, rfl, h0, rfl, hw, hact, est, hs⟩
      · cases hwf : env.walletsFetch with
        | error e => rw [hwf] at h; cases h
        | ok wallets =>
            rw [hwf] at h
            dsimp only at h
            cases hw : _get_inr_futures_wallet wallets with
            | none => rw [hw] at h; cases h
            | some w => rw [hw] at h; cases h

/-- C1 (counterexample): a sizing run that reaches submission whose finalized
quantity is NOT an integer multiple of the instrument quantity_increment.
With increment 3e-9 the step 6e-9 passes both bound gates, but the fixed
8-fractional-digit rendering turns it into 1e-8, which is not a multiple
of 3e-9. -/
theorem C1_counterexample :
    place_order_on_coindcx envC1 orderC1
      = Except.ok (PlaceResult.submitted (1 / 100000000) 200) ∧
    effQuantityIncrement envC1.inst = 3 / 1000000000 ∧
    ¬ ∃ n : ℤ, (1 / 100000000 : ℚ) = (n : ℚ) * effQuantityIncrement envC1.inst := by
  refine ⟨by decide, by decide, ?_⟩
  rintro ⟨n, hn⟩
  rw [show effQuantityIncrement envC1.inst = 3 / 1000000000 by decide] at hn
  have h3 : (n : ℚ) * 3 = 10 := by
    field_simp at hn
    linarith
  have h4 : n * 3 = 10 := by exact_mod_cast h3
  omega

/-- C1 (amended): for every sizing run that reaches submission, IF the
instrument quantity_increment is an integer multiple of 1e-8 (i.e.
representable at the 8-fractional-digit rendering precision), then the
finalized quantity equals floor(contracts_raw / increment) * increment
exactly, hence is an integer multiple of the increment, and lies between
min_quantity and max_quantity. -/
theorem C1_amended_theorem (env : ExecEnv) (order : MemOrder) (tq : ℚ) (s : ℕ) (k : ℤ)
    (hinc : effQuantityIncrement env.inst = (k : ℚ) / 100000000)
    (hrun : place_order_on_coindcx env order = Except.ok (PlaceResult.submitted tq s)) :
    (∃ n : ℤ, tq = (n : ℚ) * effQuantityIncrement env.inst) ∧
    effMinQuantity env.inst ≤ tq ∧ tq ≤ effMaxQuantity env.inst := by
  obtain ⟨-, price, wallets, w, hp, h0, hwf, hw, hact, est, hs⟩ := place_order_submitted_inv hrun
  obtain ⟨htq, hmin, hmax, -, -⟩ := sizeContracts_ok_inv hs
  have hstep : contractsStep
      (contractsRaw order.qty price (effUnitContractValue env.inst)
        (_get_usdt_inr_rate env.ticker env.now env.fxFetch)) (effQuantityIncrement env.inst)
      = ((Rat.floor (contractsRaw order.qty price (effUnitContractValue env.inst)
          (_get_usdt_inr_rate env.ticker env.now env.fxFetch) / effQuantityIncrement env.inst)
            : ℚ)) * effQuantityIncrement env.inst := rfl
  have hfix : roundTo8 (contractsStep
      (contractsRaw order.qty price (effUnitContractValue env.inst)
        (_get_usdt_inr_rate env.ticker env.now env.fxFetch)) (effQuantityIncrement env.inst))
      = contractsStep
          (contractsRaw order.qty price (effUnitContractValue env.inst)
            (_get_usdt_inr_rate env.ticker env.now env.fxFetch))
          (effQuantityIncrement env.inst) := by
    apply roundTo8_fixed _
      (Rat.floor (contractsRaw order.qty price (effUnitContractValue env.inst)
        (_get_usdt_inr_rate env.ticker env.now env.fxFetch) / effQuantityIncrement env.inst) * k)
    rw [hstep, hinc]
    push_cast
    field_simp
  rw [htq, hfix]
  refine ⟨⟨Rat.floor (contractsRaw order.qty price (effUnitContractValue env.inst)
    (_get_usdt_inr_rate env.ticker env.now env.fxFetch) / effQuantityIncrement env.inst),
    hstep⟩, hmin, hmax⟩

/-- C1 (witness): the worked scenario of the design document runs the
amended theorem at increment 0.001 = 100000e-8 and quantity 1.851. -/
theorem C1_amended_witness :
    effQuantityIncrement envW.inst = ((100000 : ℤ) : ℚ) / 100000000 ∧
    place_order_on_coindcx envW orderW = Except.ok (PlaceResult.submitted (1851 / 1000) 200) ∧
    ((∃ n : ℤ, (1851 / 1000 : ℚ) = (n : ℚ) * effQuantityIncrement envW.inst) ∧
      effMinQuantity envW.inst ≤ (1851 / 1000 : ℚ) ∧
      (1851 / 1000 : ℚ) ≤ effMaxQuantity envW.inst) :=
  ⟨by decide, by decide,
    C1_amended_theorem envW orderW (1851 / 1000) 200 100000 (by decide) (by decide)⟩

/-- The margin gate of the sizing section: when both bound gates pass and the
estimated margin exceeds the balance, the result is the named margin
error. -/
lemma sizeContracts_margin {qty price ucv inc minQ maxQ rate : ℚ} {lev : ℤ} {bal : ℚ}
    (hmin : minQ ≤ contractsStep (contractsRaw qty price ucv rate) inc)
    (hmax : contractsStep (contractsRaw qty price ucv rate) inc ≤ maxQ)
    (hbal : bal < estimatedMargin
      (price * ucv * roundTo8 (contractsStep (contractsRaw qty price ucv rate) inc) * rate) lev) :
    sizeContracts qty price ucv inc minQ maxQ rate lev bal
      = SizeResult.marginExceeds
          (estimatedMargin
            (price * ucv * roundTo8 (contractsStep (contractsRaw qty price ucv rate) inc) * rate)
            lev) bal := by
  unfold sizeContracts
  dsimp only
  rw [if_neg (not_lt.mpr hmin), if_neg (not_lt.mpr hmax), if_pos hbal]

/-- C2: an order whose computed estimated margin exceeds the fetched INR
wallet balance is answered with the structured error
estimated_margin_exceeds_balance, and the run never reaches the exchange
submission (the result is not a submitted result for any status). -/
theorem C2_theorem (env : ExecEnv) (order : MemOrder) (price : ℚ)
    (wallets : List WalletEntry) (w : WalletEntry)
    (hp : resolvedPrice env order = some price) (h0 : ¬ price = 0)
    (hwf : env.walletsFetch = Except.ok wallets)
    (hw : _get_inr_futures_wallet wallets = some w)
    (hact : derivedPair order ∈ env.activeInstruments)
    (hmin : effMinQuantity env.inst ≤ orderStep env order price)
    (hmax : orderStep env order price ≤ effMaxQuantity env.inst)
    (hbal : walletBalance w < orderEstimatedMargin env order price) :
    place_order_on_coindcx env order
      = Except.ok (PlaceResult.marginExceedsBalance (orderEstimatedMargin env order price)
          (walletBalance w)) ∧
    ∀ tq s, place_order_on_coindcx env order ≠ Except.ok (PlaceResult.submitted tq s) := by
  have hsz : sizeContracts order.qty price (effUnitContractValue env.inst)
      (effQuantityIncrement env.inst) (effMinQuantity env.inst) (effMaxQuantity env.inst)
      (_get_usdt_inr_rate env.ticker env.now env.fxFetch) (effLeverage order) (walletBalance w)
      = SizeResult.marginExceeds (orderEstimatedMargin env order price) (walletBalance w) := by
    simp only [orderEstimatedMargin, orderStep] at hmin hmax hbal ⊢
    exact sizeContracts_margin hmin hmax hbal
  have hmain : place_order_on_coindcx env order
      = Except.ok (PlaceResult.marginExceedsBalance (orderEstimatedMargin env order price)
          (walletBalance w)) := by
    unfold place_order_on_coindcx
    rw [hp]
    dsimp only
    rw [if_neg h0, hwf]
    dsimp only
    rw [hw]
    dsimp only
    rw [if_pos hact, hsz]
  refine ⟨hmain, fun tq s hcontra => ?_⟩
  rw [hmain] at hcontra
  injection hcontra with h1
  cases h1

/-- C2 (witness): the margin-reject scenario of the design document, wallet
balance 500 INR against an estimated margin just under 1000 INR. -/
theorem C2_witness :
    walletBalance wInr500 < orderEstimatedMargin envMarginReject orderW 60000 ∧
    place_order_on_coindcx envMarginReject orderW
      = Except.ok (PlaceResult.marginExceedsBalance
          (orderEstimatedMargin envMarginReject orderW 60000) (walletBalance wInr500)) ∧
    ∀ tq s, place_order_on_coindcx envMarginReject orderW
      ≠ Except.ok (PlaceResult.submitted tq s) := by
  have h := C2_theorem envMarginReject orderW 60000 [wInr500] wInr500 (by decide) (by decide)
      (by decide) (by decide) (by decide) (by decide) (by decide) (by decide)
  exact ⟨by decide, h.1, h.2⟩

/-- C6: when the derived pair is absent from the active-instrument set of
the INR margin currency, place_order_on_coindcx answers
instrument_not_active, and it does so whatever the instrument metadata or
the exchange behaviour would have been: no quantity computation influences
the outcome and no other instrument is substituted. -/
theorem C6_theorem (env : ExecEnv) (order : MemOrder) (price : ℚ)
    (wallets : List WalletEntry) (w : WalletEntry)
    (hp : resolvedPrice env order = some price) (h0 : ¬ price = 0)
    (hwf : env.walletsFetch = Except.ok wallets)
    (hw : _get_inr_futures_wallet wallets = some w)
    (hact : derivedPair order ∉ env.activeInstruments) :
    ∀ (inst : Instrument) (ex : Except String ℕ),
      place_order_on_coindcx { env with inst := inst, exchResponse := ex } order
        = Except.ok PlaceResult.instrumentNotActive := by
  intro inst ex
  have hp2 : resolvedPrice { env with inst := inst, exchResponse := ex } order = some price := hp
  have hwf2 : ({ env with inst := inst, exchResponse := ex } : ExecEnv).walletsFetch
      = Except.ok wallets := hwf
  have hact2 : derivedPair order ∉
      ({ env with inst := inst, exchResponse := ex } : ExecEnv).activeInstruments := hact
  unfold place_order_on_coindcx
  rw [hp2]
  dsimp only
  rw [if_neg h0, hwf2]
  dsimp only
  rw [hw]
  dsimp only
  rw [if_neg hact2]

/-- C6 (witness): the worked scenario with an active set that does not
contain B-BTC_USDT rejects with instrument_not_active for every instrument
metadata value. -/
theorem C6_witness :
    resolvedPrice envInactive orderW = some 60000 ∧
    derivedPair orderW ∉ envInactive.activeInstruments ∧
    ∀ (inst : Instrument) (ex : Except String ℕ),
      place_order_on_coindcx { envInactive with inst := inst, exchResponse := ex } orderW
        = Except.ok PlaceResult.instrumentNotActive :=
  ⟨by decide, by decide,
    C6_theorem envInactive orderW 60000 [wInr5000] wInr5000 (by decide) (by decide) (by decide)
      (by decide) (by decide)⟩

/-- C10: whenever USDTINR is absent from the ticker cache even after the
conditional refresh, or its cached value is falsy (zero), the FX helper
silently answers the hardcoded rate 90.0; and that value is exactly the
rate every place_order_on_coindcx sizing run reads for such an
environment. -/
theorem C10_theorem (st : TickerState) (now : ℚ) (fetch : Option (List TickerItem))
    (h : lookupSym (fx_refreshed_state st now fetch).cache "USDTINR" = none ∨
         lookupSym (fx_refreshed_state st now fetch).cache "USDTINR" = some 0) :
    _get_usdt_inr_rate st now fetch = 90 ∧
    ∀ env : ExecEnv, env.ticker = st → env.now = now → env.fxFetch = fetch →
      _get_usdt_inr_rate env.ticker env.now env.fxFetch = 90 := by
  have h90 : _get_usdt_inr_rate st now fetch = 90 := by
    unfold _get_usdt_inr_rate
    rcases h with h | h
    · rw [h]
    · rw [h]
      simp
  refine ⟨h90, fun env h1 h2 h3 => ?_⟩
  rw [h1, h2, h3]
  exact h90

/-- C10 (witness): an empty cache that a failed refresh leaves empty yields
the substitute rate 90. -/
theorem C10_witness :
    lookupSym (fx_refreshed_state ⟨[], 0⟩ 0 none).cache "USDTINR" = none ∧
    _get_usdt_inr_rate ⟨[], 0⟩ 0 none = 90 :=
  ⟨by decide, (C10_theorem ⟨[], 0⟩ 0 none (Or.inl (by decide))).1⟩

/-- C3 (counterexample): a present-but-stale cache entry is served without
any refresh. The BTCUSDT entry is 100 seconds old (far beyond the 10
second TTL) and the upstream feed would deliver the new price 7, yet the
handler returns the stale price 5 and leaves the state untouched, where
the claimed TTL-triggered refresh would have answered 7. -/
theorem C3_counterexample :
    (10 : ℚ) < 100 - (0 : ℚ) ∧
    parse_ticker_items [{ market := some "BTCUSDT", last := some 7 }] = [("BTCUSDT", 7)] ∧
    get_price_http ⟨[("BTCUSDT", 5)], 0⟩ (some [{ market := some "BTCUSDT", last := some 7 }])
        100 "BTCUSDT"
      = (some (5, 0), ⟨[("BTCUSDT", 5)], 0⟩) := by
  refine ⟨by norm_num, by decide, by decide⟩

/-- C3 (amended): the price endpoint triggers a synchronous refresh only
when the symbol is absent from the cache (a present entry is served
unconditionally, with no staleness check); when absent, the refresh runs
first, and if the symbol is still absent afterwards the handler signals
NotFound rather than fabricating a price. -/
theorem C3_amended_theorem (st : TickerState) (fetch : Option (List TickerItem)) (now : ℚ)
    (symbol : String) :
    (∀ p, lookupSym st.cache (upperStr symbol) = some p →
        get_price_http st fetch now symbol = (some (p, st.updatedAt), st)) ∧
    (lookupSym st.cache (upperStr symbol) = none →
        (∀ p, lookupSym (refresh_ticker_cache fetch st now).cache (upperStr symbol) = some p →
            get_price_http st fetch now symbol
              = (some (p, (refresh_ticker_cache fetch st now).updatedAt),
                  refresh_ticker_cache fetch st now)) ∧
        (lookupSym (refresh_ticker_cache fetch st now).cache (upperStr symbol) = none →
            get_price_http st fetch now symbol = (none, refresh_ticker_cache fetch st now))) := by
  refine ⟨fun p hp => ?_, fun habs => ⟨fun p hp => ?_, fun habs2 => ?_⟩⟩
  · unfold get_price_http
    dsimp only
    rw [hp]
  · unfold get_price_http
    dsimp only
    rw [habs]
    dsimp only
    rw [hp]
  · unfold get_price_http
    dsimp only
    rw [habs]
    dsimp only
    rw [habs2]

/-- C3 (witness): a miss on an empty cache refreshes and serves the freshly
fetched price with the new timestamp. -/
theorem C3_amended_witness :
    lookupSym (⟨[], 0⟩ : TickerState).cache (upperStr "BTCUSDT") = none ∧
    lookupSym (refresh_ticker_cache fetchC3 ⟨[], 0⟩ 100).cache (upperStr "BTCUSDT") = some 7 ∧
    get_price_http ⟨[], 0⟩ fetchC3 100 "BTCUSDT"
      = (some (7, (refresh_ticker_cache fetchC3 ⟨[], 0⟩ 100).updatedAt),
          refresh_ticker_cache fetchC3 ⟨[], 0⟩ 100) :=
  ⟨by decide, by decide,
    ((C3_amended_theorem ⟨[], 0⟩ fetchC3 100 "BTCUSDT").2 (by decide)).1 7 (by decide)⟩

/-- C4 (counterexample): in the PriceBroadcaster poll loop a successful
fetch that parses to no entries does NOT leave the previous mapping
untouched: the whole mapping is replaced by the empty one. -/
theorem C4_counterexample :
    poll_cycle_tickers (some []) [("BTCUSDT", 5)] = [] ∧
    parse_poll_items [] = [] ∧
    [("BTCUSDT", 5)] ≠ ([] : List (String × ℚ)) := by
  exact ⟨by decide, by decide, by decide⟩

/-- C4 (amended): the trading.py ticker refresh behaves exactly as claimed
(failed fetch or empty parse leaves mapping and timestamp unchanged, a
non-empty parse replaces the mapping wholesale and stamps the time), while
the PriceBroadcaster poll cycle preserves the previous mapping only on a
failed fetch; a successful fetch replaces it even when nothing parsed. -/
theorem C4_amended_theorem (st : TickerState) (now : ℚ) :
    refresh_ticker_cache none st now = st ∧
    (∀ items, parse_ticker_items items = [] → refresh_ticker_cache (some items) st now = st) ∧
    (∀ items, parse_ticker_items items ≠ [] →
        refresh_ticker_cache (some items) st now = ⟨parse_ticker_items items, now⟩) ∧
    (∀ tickers, poll_cycle_tickers none tickers = tickers) ∧
    (∀ items tickers, poll_cycle_tickers (some items) tickers = parse_poll_items items) := by
  refine ⟨rfl, fun items hit => ?_, fun items hit => ?_, fun tickers => rfl,
    fun items tickers => rfl⟩
  · unfold refresh_ticker_cache
    dsimp only
    rw [if_pos hit]
  · unfold refresh_ticker_cache
    dsimp only
    rw [if_neg hit]

/-- C4 (witness): a non-empty parse replaces the single-entry mapping
wholesale together with its timestamp. -/
theorem C4_amended_witness :
    parse_ticker_items itemsC4 ≠ [] ∧
    refresh_ticker_cache (some itemsC4) ⟨[("OLD", 1)], 0⟩ 42
      = ⟨parse_ticker_items itemsC4, 42⟩ :=
  ⟨by decide, (C4_amended_theorem ⟨[("OLD", 1)], 0⟩ 42).2.2.1 itemsC4 (by decide)⟩

/-- C5: contrary to the claim, a failure of the broadcast step terminates
the trading.py ticker background loop: the loop only handles cancellation,
so a websocket send failure raised by the broadcast pass escapes and the
polling task dies after the failing cycle (here, a one-cycle schedule ends
in the error instead of completing). The PriceBroadcaster loop, by
contrast, completes every schedule of cycle outcomes. -/
theorem C5_theorem :
    ticker_background_loop [(none, Except.error "websocket send failed", 1)] ⟨[], 0⟩
      = Except.error "websocket send failed" ∧
    ∀ (cycles : List (Option (List PollItem) × Except String Unit))
      (tickers : List (String × ℚ)),
      ∃ result, _poll_loop cycles tickers = Except.ok result := by
  constructor
  · rfl
  · intro cycles
    induction cycles with
    | nil => exact fun tickers => ⟨tickers, rfl⟩
    | cons c rest ih => exact fun tickers => ih (poll_cycle_tickers c.1 tickers)

/-- A resolved id equals the id of the resolved order (the id map is keyed
by order id). -/
lemma idLookup_id {orders : List MemOrder} {oid : ℕ} {o : MemOrder}
    (h : idLookup orders oid = some o) : o.id = oid := by
  have hp := List.find?_some h
  simpa using hp

/-- A resolved order is an element of the queue. -/
lemma idLookup_mem {orders : List MemOrder} {oid : ℕ} {o : MemOrder}
    (h : idLookup orders oid = some o) : o ∈ orders := by
  have hm := List.mem_of_find?_eq_some h
  exact List.mem_reverse.mp hm

/-- Closed form of the accumulators of a batch loop pass that COMPLETES
(no placement raised): executed collects the successfully placed resolved
orders, failed the ids of unsuccessfully placed resolved orders, not_found
the unresolved ids, and debug one trace entry per resolved id, all in
submission order. -/
lemma execPass_ok_eq (place : MemOrder → Except String PlaceResult) (orders : List MemOrder)
    (ids : List ℕ) :
    ∀ r4, execPass place orders ids = Except.ok r4 →
      r4 = (ids.filterMap (fun oid => (idLookup orders oid).bind (fun o =>
              match place o with
              | Except.ok r => if orderSuccess r then some o else none
              | Except.error _ => none)),
            ids.filter (fun oid =>
              match idLookup orders oid with
              | some o =>
                  match place o with
                  | Except.ok r => !orderSuccess r
                  | Except.error _ => false
              | none => false),
            ids.filter (fun oid => (idLookup orders oid).isNone),
            ids.filterMap (fun oid => (idLookup orders oid).bind (fun o =>
              (place o).toOption.map (fun r => (oid, o.symbol, r))))) := by
  induction ids with
  | nil =>
      intro r4 h
      injection h with h1
      subst h1
      rfl
  | cons oid rest ih =>
      intro r4 h
      unfold execPass at h
      cases hlk : idLookup orders oid with
      | none =>
          rw [hlk] at h
          dsimp only at h
          cases hrec : execPass place orders rest with
          | error e => rw [hrec] at h; cases h
          | ok r4r =>
              rw [hrec] at h
              dsimp only at h
              injection h with h1
              subst h1
              rw [ih r4r hrec]
              simp [hlk, List.filterMap_cons, List.filter_cons]
      | some o =>
          rw [hlk] at h
          dsimp only at h
          cases hpl : place o with
          | error e => rw [hpl] at h; cases h
          | ok r =>
              rw [hpl] at h
              dsimp only at h
              cases hrec : execPass place orders rest with
              | error e => rw [hrec] at h; cases h
              | ok r4r =>
                  rw [hrec] at h
                  dsimp only at h
                  by_cases hs : orderSuccess r = true
                  · rw [if_pos hs] at h
                    injection h with h1
                    subst h1
                    rw [ih r4r hrec]
                    simp [hlk, hpl, hs, Except.toOption, List.filterMap_cons, List.filter_cons]
                  · rw [if_neg hs] at h
                    injection h with h1
                    subst h1
                    rw [ih r4r hrec]
                    simp [hlk, hpl, hs, Except.toOption, List.filterMap_cons, List.filter_cons]

/-- When every resolved order of the batch is placed without raising, the
loop completes. -/
lemma execPass_ok_of (place : MemOrder → Except String PlaceResult) (orders : List MemOrder)
    (ids : List ℕ)
    (hok : ∀ oid o, oid ∈ ids → idLookup orders oid = some o →
      ∃ r, place o = Except.ok r) :
    ∃ r4, execPass place orders ids = Except.ok r4 := by
  induction ids with
  | nil => exact ⟨([], [], [], []), rfl⟩
  | cons oid rest ih =>
      obtain ⟨r4, hrec⟩ := ih (fun oid2 o h2 hlk => hok oid2 o (List.mem_cons_of_mem _ h2) hlk)
      unfold execPass
      cases hlk : idLookup orders oid with
      | none =>
          dsimp only
          rw [hrec]
          exact ⟨_, rfl⟩
      | some o =>
          dsimp only
          obtain ⟨r, hr⟩ := hok oid o (List.mem_cons_self _ _) hlk
          rw [hr]
          dsimp only
          rw [hrec]
          dsimp only
          by_cases hs : orderSuccess r = true
          · rw [if_pos hs]
            exact ⟨_, rfl⟩
          · rw [if_neg hs]
            exact ⟨_, rfl⟩

/-- C7 (counterexample): the batch result does not always carry the four
buckets, and executed orders are not always removed. Order moA resolves,
submits and is answered 200 (a success), but the next id resolves moC,
whose market order has no limit price and whose symbol has no cached
price, so place_order_on_coindcx raises the no-price HTTPException; the
handler has no try/except, the whole call aborts with the exception (no
four-bucket body), and the queue keeps both orders, the already-submitted
moA included. -/
theorem C7_counterexample :
    place_order_on_coindcx envC7 moA = Except.ok (PlaceResult.submitted (185 / 1000) 200) ∧
    orderSuccess (PlaceResult.submitted (185 / 1000) 200) = true ∧
    place_order_on_coindcx envC7 moC = Except.error "No price available for XYZUSDT" ∧
    execute_orders (fun x => place_order_on_coindcx envC7 x) [moA, moC] [1, 2]
      = (Except.error "No price available for XYZUSDT", [moA, moC]) := by
  exact ⟨by decide, by decide, by decide, by decide⟩

/-- C7 (amended): provided no placement raises (every resolved order is
answered by a returned result dict), the batch-execute call resolves each
id independently (not_found is exactly the unresolved ids), traces every
resolved attempt in debug, marks a resolved order executed exactly when
its placement result is successful, where success of a submitted result
means HTTP status 200 or 201 and a result that never reached submission is
never a success, marks it failed exactly otherwise, and removes from the
queue exactly the executed orders so that failed and not-found orders
remain. -/
theorem C7_amended_theorem (place : MemOrder → Except String PlaceResult)
    (orders : List MemOrder) (ids : List ℕ)
    (hnodup : (orders.map MemOrder.id).Nodup)
    (hok : ∀ oid o, oid ∈ ids → idLookup orders oid = some o →
      ∃ r, place o = Except.ok r) :
    ∃ R : ExecBatchResult,
      (execute_orders place orders ids).1 = Except.ok R ∧
      R.notFound = ids.filter (fun oid => (idLookup orders oid).isNone) ∧
      R.debug = ids.filterMap (fun oid => (idLookup orders oid).bind (fun o =>
          (place o).toOption.map (fun r => (oid, o.symbol, r)))) ∧
      (∀ tq s, orderSuccess (PlaceResult.submitted tq s) = true ↔ (s = 200 ∨ s = 201)) ∧
      (∀ r : PlaceResult, (∀ tq s, r ≠ PlaceResult.submitted tq s) → orderSuccess r = false) ∧
      (∀ oid o r, oid ∈ ids → idLookup orders oid = some o → place o = Except.ok r →
          ((o ∈ R.executed ↔ orderSuccess r = true) ∧
            (oid ∈ R.failed ↔ orderSuccess r = false))) ∧
      (∀ o, o ∈ (execute_orders place orders ids).2 ↔ o ∈ orders ∧ o ∉ R.executed) ∧
      (∀ oid o r, oid ∈ ids → idLookup orders oid = some o → place o = Except.ok r →
          orderSuccess r = false → o ∈ (execute_orders place orders ids).2) := by
  obtain ⟨r4, hpass⟩ := execPass_ok_of place orders ids hok
  have hr4 := execPass_ok_eq place orders ids r4 hpass
  have hres : (execute_orders place orders ids).1
      = Except.ok ⟨r4.1, r4.2.1, r4.2.2.1, r4.2.2.2⟩ := by
    simp only [execute_orders, hpass]
  have hqdef : (execute_orders place orders ids).2
      = if r4.1.isEmpty then orders
        else orders.filter (fun o => !(r4.1.any (fun e => e.id == o.id))) := by
    simp only [execute_orders, hpass]
  have hexmem : ∀ o, o ∈ r4.1 ↔
      ∃ oid ∈ ids, idLookup orders oid = some o ∧
        ∃ r, place o = Except.ok r ∧ orderSuccess r = true := by
    intro o
    rw [show r4.1 = ids.filterMap (fun oid => (idLookup orders oid).bind (fun o =>
        match place o with
        | Except.ok r => if orderSuccess r then some o else none
        | Except.error _ => none)) from by rw [hr4]]
    rw [List.mem_filterMap]
    constructor
    · rintro ⟨oid, hin, hf⟩
      cases hlk : idLookup orders oid with
      | none => rw [hlk] at hf; cases hf
      | some o2 =>
          rw [hlk] at hf
          simp only [Option.some_bind] at hf
          cases hpl : place o2 with
          | error e => rw [hpl] at hf; cases hf
          | ok r =>
              rw [hpl] at hf
              dsimp only at hf
              by_cases hs : orderSuccess r = true
              · rw [if_pos hs] at hf
                injection hf with ho
                subst ho
                exact ⟨oid, hin, hlk, r, hpl, hs⟩
              · rw [if_neg hs] at hf; cases hf
    · rintro ⟨oid, hin, hlk, r, hpl, hs⟩
      exact ⟨oid, hin, by simp [hlk, hpl, hs]⟩
  have hflmem : ∀ oid o r, idLookup orders oid = some o → place o = Except.ok r →
      (oid ∈ r4.2.1 ↔ oid ∈ ids ∧ orderSuccess r = false) := by
    intro oid o r hlk hpl
    rw [show r4.2.1 = ids.filter (fun oid =>
        match idLookup orders oid with
        | some o =>
            match place o with
            | Except.ok r => !orderSuccess r
            | Except.error _ => false
        | none => false) from by rw [hr4]]
    rw [List.mem_filter]
    constructor
    · rintro ⟨hin, hpred⟩
      rw [hlk] at hpred
      dsimp only at hpred
      rw [hpl] at hpred
      dsimp only at hpred
      exact ⟨hin, by simpa using hpred⟩
    · rintro ⟨hin, hs⟩
      refine ⟨hin, ?_⟩
      rw [hlk]
      dsimp only
      rw [hpl]
      dsimp only
      simpa using hs
  have hqueue : ∀ o, o ∈ (execute_orders place orders ids).2 ↔ o ∈ orders ∧ o ∉ r4.1 := by
    intro o
    rw [hqdef]
    by_cases he : r4.1.isEmpty
    · rw [if_pos he]
      rw [List.isEmpty_iff] at he
      rw [he]
      simp
    · rw [if_neg he]
      rw [List.mem_filter]
      constructor
      · rintro ⟨hmem, hany⟩
        refine ⟨hmem, fun hcon => ?_⟩
        rw [Bool.not_eq_true', List.any_eq_false] at hany
        exact absurd (by simp) (hany o hcon)
      · rintro ⟨hmem, hnot⟩
        refine ⟨hmem, ?_⟩
        rw [Bool.not_eq_true', List.any_eq_false]
        intro e hemem
        have hemem2 : e ∈ orders := by
          obtain ⟨oid, -, hlk, -⟩ := (hexmem e).mp hemem
          exact idLookup_mem hlk
        intro heid
        have heq : e.id = o.id := by simpa using heid
        have : e = o := List.inj_on_of_nodup_map hnodup hemem2 hmem heq
        exact hnot (this ▸ hemem)
  refine ⟨⟨r4.1, r4.2.1, r4.2.2.1, r4.2.2.2⟩, hres, by rw [hr4], by rw [hr4], ?_, ?_, ?_,
    hqueue, ?_⟩
  · intro tq s
    simp [orderSuccess]
  · intro r hr
    cases r <;> simp [orderSuccess]
    exact absurd rfl (hr _ _)
  · intro oid o r hin hlk hpl
    constructor
    · rw [show ExecBatchResult.executed ⟨r4.1, r4.2.1, r4.2.2.1, r4.2.2.2⟩ = r4.1 from rfl,
        hexmem o]
      constructor
      · rintro ⟨oid2, -, -, r2, hpl2, hs2⟩
        rw [hpl] at hpl2
        injection hpl2 with h2
        rw [h2]
        exact hs2
      · intro hs
        exact ⟨oid, hin, hlk, r, hpl, hs⟩
    · rw [show ExecBatchResult.failed ⟨r4.1, r4.2.1, r4.2.2.1, r4.2.2.2⟩ = r4.2.1 from rfl,
        hflmem oid o r hlk hpl]
      constructor
      · rintro ⟨-, hs⟩
        exact hs
      · intro hs
        exact ⟨hin, hs⟩
  · intro oid o r hin hlk hpl hs
    rw [hqueue o]
    refine ⟨idLookup_mem hlk, fun hcon => ?_⟩
    obtain ⟨-, -, -, r2, hpl2, hs2⟩ := (hexmem o).mp hcon
    rw [hpl] at hpl2
    injection hpl2 with h2
    rw [h2] at hs
    rw [hs] at hs2
    cases hs2

/-- C7 (witness): a batch over ids 1 (resolved, submits and is answered
200), 2 (resolved, rejected in sizing as instrument_not_active, a
non-success) and 7 (absent from the queue), in which no placement
raises. -/
theorem C7_amended_witness :
    (List.map MemOrder.id [moA, moB]).Nodup ∧
    ∃ R : ExecBatchResult,
      (execute_orders (fun x => place_order_on_coindcx envC7 x) [moA, moB] [1, 2, 7]).1
        = Except.ok R ∧
      R.notFound = [1, 2, 7].filter (fun oid => (idLookup [moA, moB] oid).isNone) ∧
      (moA ∈ R.executed ↔ orderSuccess (PlaceResult.submitted (185 / 1000) 200) = true) ∧
      (2 ∈ R.failed ↔ orderSuccess PlaceResult.instrumentNotActive = false) ∧
      (∀ o, o ∈ (execute_orders (fun x => place_order_on_coindcx envC7 x)
            [moA, moB] [1, 2, 7]).2
          ↔ o ∈ [moA, moB] ∧ o ∉ R.executed) := by
  have hok : ∀ oid o, oid ∈ [1, 2, 7] → idLookup [moA, moB] oid = some o →
      ∃ r, place_order_on_coindcx envC7 o = Except.ok r := by
    intro oid o hin hlk
    fin_cases hin
    · rw [show idLookup [moA, moB] 1 = some moA from by decide] at hlk
      injection hlk with h
      subst h
      exact ⟨PlaceResult.submitted (185 / 1000) 200, by decide⟩
    · rw [show idLookup [moA, moB] 2 = some moB from by decide] at hlk
      injection hlk with h
      subst h
      exact ⟨PlaceResult.instrumentNotActive, by decide⟩
    · rw [show idLookup [moA, moB] 7 = none from by decide] at hlk
      cases hlk
  obtain ⟨R, h1, h2, h3, -, -, h6, h7, -⟩ :=
    C7_amended_theorem (fun x => place_order_on_coindcx envC7 x) [moA, moB] [1, 2, 7]
      (by decide) hok
  exact ⟨by decide, R, h1, h2,
    (h6 1 moA (PlaceResult.submitted (185 / 1000) 200) (by decide) (by decide) (by decide)).1,
    (h6 2 moB PlaceResult.instrumentNotActive (by decide) (by decide) (by decide)).2, h7⟩

/-- C8: a stored order that is not QUEUED is rejected by both update and
delete with the not-updatable condition and the store is left byte-for-byte
unchanged; a QUEUED order with an acceptable leverage payload is updated in
place: the call succeeds, the rewritten row is in the store, its id and
creation time are preserved, and every provided mutable field is replaced
by the payload value (symbol uppercased). -/
theorem C8_theorem (store : List UserOrder) (uid oid : ℕ) (maxLeverage : ℤ)
    (u : OrderUpdate) (now : ℚ) (o : UserOrder)
    (hfind : findUserOrder store uid oid = some o) :
    (o.status ≠ UOStatus.queued →
      update_order store uid oid maxLeverage u now = (store, UpdResult.notUpdatable) ∧
      delete_order store uid oid = (store, UpdResult.notUpdatable)) ∧
    (o.status = UOStatus.queued →
      (∀ l, u.leverage = some l → l ≤ maxLeverage) →
      (update_order store uid oid maxLeverage u now).2 = UpdResult.ok ∧
      applyOrderUpdate o u now ∈ (update_order store uid oid maxLeverage u now).1 ∧
      (applyOrderUpdate o u now).id = o.id ∧
      (applyOrderUpdate o u now).created_at = o.created_at ∧
      (∀ s, u.symbol = some s → (applyOrderUpdate o u now).symbol = upperStr s) ∧
      (∀ sd, u.side = some sd → (applyOrderUpdate o u now).side = sd) ∧
      (∀ t, u.order_type = some t → (applyOrderUpdate o u now).order_type = t) ∧
      (∀ q, u.quantity = some q → (applyOrderUpdate o u now).quantity = q) ∧
      (∀ l, u.leverage = some l → (applyOrderUpdate o u now).leverage = l) ∧
      (∀ p, u.limit_price = some p → (applyOrderUpdate o u now).limit_price = some p) ∧
      (∀ m, u.margin = some m → (applyOrderUpdate o u now).margin = some m)) := by
  constructor
  · intro hne
    constructor
    · unfold update_order
      rw [hfind]
      dsimp only
      rw [if_pos hne]
    · unfold delete_order
      rw [hfind]
      dsimp only
      rw [if_pos hne]
  · intro hq hlev
    have hpred := List.find?_some hfind
    have hmem := List.mem_of_find?_eq_some hfind
    have hupd : update_order store uid oid maxLeverage u now
        = (store.map (fun x => if x.id == oid && x.user_id == uid
            then applyOrderUpdate x u now else x), UpdResult.ok) := by
      unfold update_order
      rw [hfind]
      dsimp only
      rw [if_neg (fun hc => hc hq)]
      cases hl : u.leverage with
      | none => rfl
      | some l =>
          dsimp only
          rw [if_neg (not_lt.mpr (hlev l hl))]
    refine ⟨by rw [hupd], ?_, rfl, rfl, fun s hs => by simp [applyOrderUpdate, hs],
      fun sd hs => by simp [applyOrderUpdate, hs], fun t hs => by simp [applyOrderUpdate, hs],
      fun q hs => by simp [applyOrderUpdate, hs], fun l hs => by simp [applyOrderUpdate, hs],
      fun p hs => by simp [applyOrderUpdate, hs], fun m hs => by simp [applyOrderUpdate, hs]⟩
    rw [hupd]
    dsimp only
    have himg : (if o.id == oid && o.user_id == uid then applyOrderUpdate o u now else o)
        = applyOrderUpdate o u now := by rw [if_pos hpred]
    rw [← himg]
    exact List.mem_map_of_mem _ hmem

/-- C8 (witness): in a store holding a queued order (id 1) and an executed
order (id 2) of user 10, the executed order rejects update and delete with
the store unchanged, while the queued order is updated with id and
creation time preserved. -/
theorem C8_witness :
    (update_order storeC8 10 2 20 updC8 60 = (storeC8, UpdResult.notUpdatable) ∧
      delete_order storeC8 10 2 = (storeC8, UpdResult.notUpdatable)) ∧
    ((update_order storeC8 10 1 20 updC8 60).2 = UpdResult.ok ∧
      applyOrderUpdate uoQueued updC8 60 ∈ (update_order storeC8 10 1 20 updC8 60).1 ∧
      (applyOrderUpdate uoQueued updC8 60).id = uoQueued.id ∧
      (applyOrderUpdate uoQueued updC8 60).created_at = uoQueued.created_at) := by
  constructor
  · exact (C8_theorem storeC8 10 2 20 updC8 60 uoExecuted (by decide)).1 (by decide)
  · have h := (C8_theorem storeC8 10 1 20 updC8 60 uoQueued (by decide)).2 (by decide)
      (fun l hl => by
        have : l = 10 := by
          have h10 : updC8.leverage = some 10 := by decide
          rw [h10] at hl
          injection hl with h2
          exact h2.symm
        rw [this]
        decide)
    exact ⟨h.1, h.2.1, h.2.2.1, h.2.2.2.1⟩

/-- Closed form of the bulk-create loop: every submitted order is stored
with consecutive ids starting at the current counter, and the counter
advances by the number of submitted orders; no validation is applied. -/
lemma add_orders_bulk_eq (os : List OrderIn) : ∀ st : QueueState,
    add_orders_bulk st os
      = (⟨st.orders ++ numberFrom st.nextId os, st.nextId + os.length⟩,
          numberFrom st.nextId os) := by
  induction os with
  | nil =>
      intro st
      simp [add_orders_bulk, numberFrom]
  | cons o rest ih =>
      intro st
      unfold add_orders_bulk
      dsimp only
      rw [ih]
      simp only [numberFrom, List.length_cons, Prod.mk.injEq, QueueState.mk.injEq,
        List.append_assoc, List.singleton_append]
      refine ⟨⟨?_, ?_⟩, ?_⟩ <;> first | trivial | omega

/-- C9 (counterexample): an order that passes every constraint the OrderIn
request model declares, yet has qty -5, is accepted and stored by the bulk
create call. -/
theorem C9_counterexample :
    validOrderIn badOrder ∧ badOrder.qty ≤ 0 ∧
    (add_orders_bulk ⟨[], 1⟩ [badOrder]).2 = [toMemOrder badOrder 1] ∧
    toMemOrder badOrder 1 ∈ (add_orders_bulk ⟨[], 1⟩ [badOrder]).1.orders ∧
    (toMemOrder badOrder 1).qty ≤ 0 := by
  exact ⟨by decide, by decide, by decide, by decide, by decide⟩

/-- C9 (amended): the single create call accepts exactly the orders with a
non-empty symbol and strictly positive INR notional, rejecting the rest
with a validation error and storing nothing; the bulk create call performs
no qty validation at all and stores every submitted order, qty less or
equal zero included, under consecutive ids. -/
theorem C9_amended_theorem (st : QueueState) (o : OrderIn) :
    (o.symbol = "" ∨ o.qty ≤ 0 → add_order st o = (st, none)) ∧
    (o.symbol ≠ "" → 0 < o.qty →
      add_order st o = (⟨st.orders ++ [toMemOrder o st.nextId], st.nextId + 1⟩,
        some (toMemOrder o st.nextId)) ∧ 0 < (toMemOrder o st.nextId).qty) ∧
    (∀ os, add_orders_bulk st os
      = (⟨st.orders ++ numberFrom st.nextId os, st.nextId + os.length⟩,
          numberFrom st.nextId os)) := by
  refine ⟨fun h => ?_, fun h1 h2 => ?_, fun os => add_orders_bulk_eq os st⟩
  · unfold add_order
    rw [if_pos h]
  · unfold add_order
    rw [if_neg (not_or.mpr ⟨h1, not_le.mpr h2⟩)]
    exact ⟨rfl, h2⟩

/-- C9 (witness): a valid positive-qty order is accepted by the single
create call and stored with the next id. -/
theorem C9_amended_witness :
    goodOrder.symbol ≠ "" ∧ (0 : ℚ) < goodOrder.qty ∧
    (add_order ⟨[], 5⟩ goodOrder
        = (⟨([] : List MemOrder) ++ [toMemOrder goodOrder 5], 5 + 1⟩, some (toMemOrder goodOrder 5)) ∧
      0 < (toMemOrder goodOrder 5).qty) :=
  ⟨by decide, by decide,
    (C9_amended_theorem ⟨[], 5⟩ goodOrder).2.1 (by decide) (by decide)⟩
